import Mathlib

/-!
Shallow embedding of `src/attr.rs` from the `derivative` procedural-macro crate:
the layer that turns the raw attributes attached to a type or a field
into the typed `Input` (type-level) and `Field` (field-level) configurations.

External `syn` values (literals, metas, attribute paths) are modelled
structurally.  The external sub-parsers (`syn::parse_str` at the `WhereClause`,
`Path` and `Expr` result types) are opaque parameters collected in
`SubParsers`, matching the specification's treatment of them as opaque
collaborators whose results are never inspected by this layer.
-/

namespace Syn

/-- Opaque type-constraint fragment (`syn::WherePredicate`); never inspected by this layer. -/
abbrev WherePredicate := String

/-- Opaque expression (`syn::Expr`); never inspected by this layer. -/
abbrev Expr := String

/-- Result of parsing a `where` clause (`syn::WhereClause`). -/
structure WhereClause where
  predicates : List WherePredicate
deriving DecidableEq

/-- A literal (`syn::Lit`).  This layer only ever distinguishes string literals
from every other literal (`string_or_err`), so all non-string literals are
collapsed into one constructor. -/
inductive Lit where
  | str (value : String)
  | other
deriving DecidableEq

mutual
/-- `syn::Meta`: a bare word, a list `name(...)`, or a `name = literal` pair. -/
inductive Meta where
  | word (name : String)
  | list (ident : String) (nested : List NestedMeta)
  | nameValue (ident : String) (lit : Lit)

/-- `syn::NestedMeta`: an inner meta or a bare literal. -/
inductive NestedMeta where
  | meta (m : Meta)
  | lit (l : Lit)
end

/-- `syn::Meta::name()`. -/
def Meta.name : Meta → String
  | .word n => n
  | .list i _ => i
  | .nameValue i _ => i

/-- `syn::PathArguments` of a path segment. -/
inductive PathArguments where
  | none
  | angleBracketed
  | parenthesized
deriving DecidableEq

/-- `syn::PathSegment`. -/
structure PathSegment where
  ident : String
  arguments : PathArguments
deriving DecidableEq

/-- `syn::Path`: a possibly global (leading `::`) list of segments.  Also used
as the opaque result type of the function-reference sub-parser. -/
structure Path where
  global : Bool
  segments : List PathSegment
deriving DecidableEq

/-- `syn::Attribute`: its path together with the result of the external
`Attribute::interpret_meta` (which yields `None` when the attribute's token
tree is not interpretable as a meta item). -/
structure Attribute where
  path : Path
  interpretMeta : Option Meta

/-- `syn::Field`: only its attribute list is consumed by this layer. -/
structure Field where
  attrs : List Attribute

end Syn

namespace Derivative

/-- The external sub-parsers consumed by this layer (`syn::parse_str` at its
three result types).  The specification treats them as opaque collaborators:
string in, opaque value or error message out. -/
structure SubParsers where
  parseWhereClause : String → Except String Syn.WhereClause
  parsePath : String → Except String Syn.Path
  parseExpr : String → Except String Syn.Expr

/-- Represent the `derivative(Clone(..))` attributes on an input. -/
structure InputClone where
  bounds : Option (List Syn.WherePredicate) := none
  clone_from : Bool := false
  rustc_copy_clone_marker : Bool := false
deriving DecidableEq

/-- Represent the `derivative(Copy(..))` attributes on an input. -/
structure InputCopy where
  bounds : Option (List Syn.WherePredicate) := none
  derives_clone : Bool := false
deriving DecidableEq

/-- Represent the `derivative(Debug(..))` attributes on an input. -/
structure InputDebug where
  bounds : Option (List Syn.WherePredicate) := none
  transparent : Bool := false
deriving DecidableEq

/-- Represent the `derivative(Default(..))` attributes on an input. -/
structure InputDefault where
  bounds : Option (List Syn.WherePredicate) := none
  new : Bool := false
deriving DecidableEq

/-- Represent the `derivative(Eq(..))` attributes on an input. -/
structure InputEq where
  bounds : Option (List Syn.WherePredicate) := none
deriving DecidableEq

/-- Represent the `derivative(Hash(..))` attributes on an input. -/
structure InputHash where
  bounds : Option (List Syn.WherePredicate) := none
deriving DecidableEq

/-- Represent the `derivative(PartialEq(..))` attributes on an input. -/
structure InputPartialEq where
  bounds : Option (List Syn.WherePredicate) := none
  on_enum : Bool := false
deriving DecidableEq

/-- Represent the `derivative` attributes on the input type (struct/enum). -/
structure Input where
  clone : Option InputClone := none
  copy : Option InputCopy := none
  debug : Option InputDebug := none
  default : Option InputDefault := none
  eq : Option InputEq := none
  hash : Option InputHash := none
  partial_eq : Option InputPartialEq := none
deriving DecidableEq

/-- Represents the `derivative(Clone(..))` attributes on a field. -/
structure FieldClone where
  bounds : Option (List Syn.WherePredicate) := none
  clone_with : Option Syn.Path := none
deriving DecidableEq

/-- Represents the `derivative(Debug(..))` attributes on a field. -/
structure FieldDebug where
  bounds : Option (List Syn.WherePredicate) := none
  format_with : Option Syn.Path := none
  ignore : Bool := false
deriving DecidableEq

/-- Represent the `derivative(Default(..))` attributes on a field. -/
structure FieldDefault where
  bounds : Option (List Syn.WherePredicate) := none
  value : Option Syn.Expr := none
deriving DecidableEq

/-- Represents the `derivative(Hash(..))` attributes on a field. -/
structure FieldHash where
  bounds : Option (List Syn.WherePredicate) := none
  hash_with : Option Syn.Path := none
  ignore : Bool := false
deriving DecidableEq

/-- Represent the `derivative(PartialEq(..))` attributes on a field. -/
structure FieldPartialEq where
  bounds : Option (List Syn.WherePredicate) := none
  compare_with : Option Syn.Path := none
  ignore : Bool := false
deriving DecidableEq

/-- Represent the `derivative` attributes on a field. -/
structure Field where
  clone : FieldClone := {}
  copy_bound : Option (List Syn.WherePredicate) := none
  debug : FieldDebug := {}
  default : FieldDefault := {}
  eq_bound : Option (List Syn.WherePredicate) := none
  hash : FieldHash := {}
  partial_eq : FieldPartialEq := {}
deriving DecidableEq

/-- `string_or_err`: get the string out of a string literal or report an error
for other literals. -/
def string_or_err (lit : Syn.Lit) : Except String String :=
  match lit with
  | .str lit_str => .ok lit_str
  | .other => .error "Expected string"

/-- The crate's own limited `Meta` subset: a name together with an ordered
list of `(option name, optional string value)` pairs. -/
structure Meta where
  name : String
  values : List (String × Option String)
deriving DecidableEq

/-- The closure of `read_meta`'s list branch: each nested entry must be a
`name = string` pair. -/
def read_nested_entry (value : Syn.NestedMeta) : Except String (String × Option String) :=
  match value with
  | .meta (.nameValue ident lit) =>
    string_or_err lit >>= fun string_lit => .ok (ident, some string_lit)
  | _ => .error "Expected named value"

/-- `read_meta`: parse an arbitrary `syn` meta into the limited `Meta` subset. -/
def read_meta (meta : Syn.NestedMeta) : Except String Meta :=
  match meta with
  | .lit _ => .error "Expected meta but found literal"
  | .meta (.word name) => .ok ⟨name, []⟩
  | .meta (.list ident nested) =>
    nested.mapM read_nested_entry >>= fun values =>
    .ok ⟨ident, values⟩
  | .meta (.nameValue ident lit) =>
    string_or_err lit >>= fun string_lit => .ok ⟨ident, [(string_lit, none)]⟩

/-- Is a nested entry a `name = string` pair? -/
def is_name_str_pair : Syn.NestedMeta → Bool
  | .meta (.nameValue _ (.str _)) => true
  | _ => false

/-- Is a nested entry of one of the shapes (nested list, bare name, bare
literal) that `read_meta` rejects with "Expected named value"? -/
def is_unnamed_entry : Syn.NestedMeta → Bool
  | .meta (.nameValue _ _) => false
  | _ => true

/-- `derivative_attribute`: filter the `derivative` items from an attribute. -/
def derivative_attribute (attr : Syn.Attribute) : Option (List Syn.NestedMeta) :=
  attr.interpretMeta.bind fun meta =>
    match meta with
    | .list ident nested => if ident = "derivative" then some nested else none
    | .word _ => none
    | .nameValue _ _ => none

/-- `parse_bound`: parse a `bound` item.  The accumulated bound list is taken
(or defaulted), extended with the predicates of the parsed `where` clause when
the payload is non-empty, and stored back as present. -/
def parse_bound (sp : SubParsers) (opt_bounds : Option (List Syn.WherePredicate))
    (value : Option String) : Except String (Option (List Syn.WherePredicate)) :=
  match value with
  | none => .error "`bound` needs a value"
  | some bound =>
    if bound.isEmpty then .ok (some (opt_bounds.getD []))
    else
      sp.parseWhereClause ("where " ++ bound) >>= fun where_clause =>
        .ok (some (opt_bounds.getD [] ++ where_clause.predicates))

/-- `parse_boolean_meta_item`: parse an item value as a boolean.  Accepted
values are the string literals `"true"` and `"false"`; a missing value yields
the given default. -/
def parse_boolean_meta_item (item : Option String) (default : Bool) (name : String) :
    Except String Bool :=
  match item with
  | some s =>
    if s = "true" then .ok true
    else if s = "false" then .ok false
    else .error ("Invalid value for `" ++ name ++ "`")
  | none => .ok default

/-- The `rustc_copy_clone_marker` scan performed in the `Clone` branch of
`Input::from_ast`: a non-global path of exactly one argument-free segment
named `rustc_copy_clone_marker`. -/
def is_rustc_copy_clone_marker (attr : Syn.Attribute) : Bool :=
  !attr.path.global &&
    match attr.path.segments with
    | [seg] => seg.ident == "rustc_copy_clone_marker" && seg.arguments == Syn.PathArguments.none
    | _ => false

/-- `is_clone`: does a nested meta name `Clone`? -/
def is_clone (elem : Syn.NestedMeta) : Bool :=
  match elem with
  | .meta m => m.name == "Clone"
  | .lit _ => false

/-- The `derive(Clone)` scan performed in the `Copy` branch of
`Input::from_ast`: a meta list named `derive` one of whose entries names
`Clone`. -/
def is_derive_clone (attr : Syn.Attribute) : Bool :=
  match attr.interpretMeta with
  | some (.list ident nested) => ident == "derive" && nested.any is_clone
  | _ => false

/-- Option loop of the type-level `Clone` branch (`match_attributes!`). -/
def parse_clone_values (sp : SubParsers) : InputClone → List (String × Option String) →
    Except String InputClone
  | clone, [] => .ok clone
  | clone, (name, value) :: rest =>
    if name = "bound" then
      parse_bound sp clone.bounds value >>= fun b =>
        parse_clone_values sp { clone with bounds := b } rest
    else if name = "clone_from" then
      parse_boolean_meta_item value true "clone_from" >>= fun v =>
        parse_clone_values sp { clone with clone_from := v } rest
    else .error ("unknown attribute `" ++ name ++ "`")

/-- Option loop of the type-level `Copy` branch (`match_attributes!`). -/
def parse_copy_values (sp : SubParsers) : InputCopy → List (String × Option String) →
    Except String InputCopy
  | copy, [] => .ok copy
  | copy, (name, value) :: rest =>
    if name = "bound" then
      parse_bound sp copy.bounds value >>= fun b =>
        parse_copy_values sp { copy with bounds := b } rest
    else .error ("unknown attribute `" ++ name ++ "`")

/-- Option loop of the type-level `Debug` branch (`match_attributes!`). -/
def parse_debug_values (sp : SubParsers) : InputDebug → List (String × Option String) →
    Except String InputDebug
  | debug, [] => .ok debug
  | debug, (name, value) :: rest =>
    if name = "bound" then
      parse_bound sp debug.bounds value >>= fun b =>
        parse_debug_values sp { debug with bounds := b } rest
    else if name = "transparent" then
      parse_boolean_meta_item value true "transparent" >>= fun v =>
        parse_debug_values sp { debug with transparent := v } rest
    else .error ("unknown attribute `" ++ name ++ "`")

/-- Option loop of the type-level `Default` branch (`match_attributes!`). -/
def parse_default_values (sp : SubParsers) : InputDefault → List (String × Option String) →
    Except String InputDefault
  | dflt, [] => .ok dflt
  | dflt, (name, value) :: rest =>
    if name = "bound" then
      parse_bound sp dflt.bounds value >>= fun b =>
        parse_default_values sp { dflt with bounds := b } rest
    else if name = "new" then
      parse_boolean_meta_item value true "new" >>= fun v =>
        parse_default_values sp { dflt with new := v } rest
    else .error ("unknown attribute `" ++ name ++ "`")

/-- Option loop of the type-level `Eq` branch (`match_attributes!`). -/
def parse_eq_values (sp : SubParsers) : InputEq → List (String × Option String) →
    Except String InputEq
  | eq, [] => .ok eq
  | eq, (name, value) :: rest =>
    if name = "bound" then
      parse_bound sp eq.bounds value >>= fun b =>
        parse_eq_values sp { eq with bounds := b } rest
    else .error ("unknown attribute `" ++ name ++ "`")

/-- Option loop of the type-level `Hash` branch (`match_attributes!`). -/
def parse_hash_values (sp : SubParsers) : InputHash → List (String × Option String) →
    Except String InputHash
  | hash, [] => .ok hash
  | hash, (name, value) :: rest =>
    if name = "bound" then
      parse_bound sp hash.bounds value >>= fun b =>
        parse_hash_values sp { hash with bounds := b } rest
    else .error ("unknown attribute `" ++ name ++ "`")

/-- Option loop of the type-level `PartialEq` branch (`match_attributes!`). -/
def parse_partial_eq_values (sp : SubParsers) : InputPartialEq → List (String × Option String) →
    Except String InputPartialEq
  | pe, [] => .ok pe
  | pe, (name, value) :: rest =>
    if name = "bound" then
      parse_bound sp pe.bounds value >>= fun b =>
        parse_partial_eq_values sp { pe with bounds := b } rest
    else if name = "feature_allow_slow_enum" then
      parse_boolean_meta_item value true "feature_allow_slow_enum" >>= fun v =>
        parse_partial_eq_values sp { pe with on_enum := v } rest
    else .error ("unknown attribute `" ++ name ++ "`")

/-- The type-level capability dispatch of `Input::from_ast` (`for_all_attr!`
body): match the meta name against the seven capabilities, take the existing
sub-configuration (or a fresh default), run the option loop, store it back as
present; unknown names are a hard error.  The `Clone` branch additionally
(re)computes the `rustc_copy_clone_marker` scan over all attributes, and the
`Copy` branch sets `derives_clone` when a `derive(Clone)` attribute is found. -/
def dispatch_input (sp : SubParsers) (attrs : List Syn.Attribute) (input : Input)
    (m : Meta) : Except String Input :=
  if m.name = "Clone" then
    parse_clone_values sp
        { (input.clone.getD {}) with
            rustc_copy_clone_marker := attrs.any is_rustc_copy_clone_marker }
        m.values >>= fun clone =>
      .ok { input with clone := some clone }
  else if m.name = "Copy" then
    parse_copy_values sp
        { (input.copy.getD {}) with
            derives_clone := (input.copy.getD {}).derives_clone || attrs.any is_derive_clone }
        m.values >>= fun copy =>
      .ok { input with copy := some copy }
  else if m.name = "Debug" then
    parse_debug_values sp (input.debug.getD {}) m.values >>= fun debug =>
      .ok { input with debug := some debug }
  else if m.name = "Default" then
    parse_default_values sp (input.default.getD {}) m.values >>= fun dflt =>
      .ok { input with default := some dflt }
  else if m.name = "Eq" then
    parse_eq_values sp (input.eq.getD {}) m.values >>= fun eq =>
      .ok { input with eq := some eq }
  else if m.name = "Hash" then
    parse_hash_values sp (input.hash.getD {}) m.values >>= fun hash =>
      .ok { input with hash := some hash }
  else if m.name = "PartialEq" then
    parse_partial_eq_values sp (input.partial_eq.getD {}) m.values >>= fun pe =>
      .ok { input with partial_eq := some pe }
  else .error ("unknown trait `" ++ m.name ++ "`")

/-- `Input::from_ast`: parse the `derivative` attributes on a type.  For each
attribute in this crate's namespace, each nested meta is read and dispatched,
folding into the accumulating `Input` and aborting at the first error. -/
def Input.from_ast (sp : SubParsers) (attrs : List Syn.Attribute) : Except String Input :=
  (attrs.filterMap derivative_attribute).foldlM
    (fun input nested_metas =>
      nested_metas.foldlM
        (fun input meta => read_meta meta >>= dispatch_input sp attrs input)
        input)
    ({} : Input)

/-- Option loop of the field-level `Clone` branch (`match_attributes!`). -/
def parse_field_clone_values (sp : SubParsers) : FieldClone → List (String × Option String) →
    Except String FieldClone
  | c, [] => .ok c
  | c, (name, value) :: rest =>
    if name = "bound" then
      parse_bound sp c.bounds value >>= fun b =>
        parse_field_clone_values sp { c with bounds := b } rest
    else if name = "clone_with" then
      (match value with
        | some path => .ok path
        | none => .error "`clone_with` needs a value") >>= fun path =>
      sp.parsePath path >>= fun p =>
        parse_field_clone_values sp { c with clone_with := some p } rest
    else .error ("unknown attribute `" ++ name ++ "`")

/-- Option loop of the field-level `Debug` branch (`match_attributes!`). -/
def parse_field_debug_values (sp : SubParsers) : FieldDebug → List (String × Option String) →
    Except String FieldDebug
  | d, [] => .ok d
  | d, (name, value) :: rest =>
    if name = "bound" then
      parse_bound sp d.bounds value >>= fun b =>
        parse_field_debug_values sp { d with bounds := b } rest
    else if name = "format_with" then
      (match value with
        | some path => .ok path
        | none => .error "`format_with` needs a value") >>= fun path =>
      sp.parsePath path >>= fun p =>
        parse_field_debug_values sp { d with format_with := some p } rest
    else if name = "ignore" then
      parse_boolean_meta_item value true "ignore" >>= fun v =>
        parse_field_debug_values sp { d with ignore := v } rest
    else .error ("unknown attribute `" ++ name ++ "`")

/-- Option loop of the field-level `Default` branch (`match_attributes!`). -/
def parse_field_default_values (sp : SubParsers) : FieldDefault → List (String × Option String) →
    Except String FieldDefault
  | d, [] => .ok d
  | d, (name, value) :: rest =>
    if name = "bound" then
      parse_bound sp d.bounds value >>= fun b =>
        parse_field_default_values sp { d with bounds := b } rest
    else if name = "value" then
      (match value with
        | some v => .ok v
        | none => .error "`value` needs a value") >>= fun v =>
      sp.parseExpr v >>= fun e =>
        parse_field_default_values sp { d with value := some e } rest
    else .error ("unknown attribute `" ++ name ++ "`")

/-- Option loop of the field-level `Eq` branch (`match_attributes!`), acting
directly on the field's `eq_bound` slot. -/
def parse_field_eq_values (sp : SubParsers) :
    Option (List Syn.WherePredicate) → List (String × Option String) →
    Except String (Option (List Syn.WherePredicate))
  | b, [] => .ok b
  | b, (name, value) :: rest =>
    if name = "bound" then
      parse_bound sp b value >>= fun b' =>
        parse_field_eq_values sp b' rest
    else .error ("unknown attribute `" ++ name ++ "`")

/-- Option loop of the field-level `Hash` branch (`match_attributes!`). -/
def parse_field_hash_values (sp : SubParsers) : FieldHash → List (String × Option String) →
    Except String FieldHash
  | h, [] => .ok h
  | h, (name, value) :: rest =>
    if name = "bound" then
      parse_bound sp h.bounds value >>= fun b =>
        parse_field_hash_values sp { h with bounds := b } rest
    else if name = "hash_with" then
      (match value with
        | some path => .ok path
        | none => .error "`hash_with` needs a value") >>= fun path =>
      sp.parsePath path >>= fun p =>
        parse_field_hash_values sp { h with hash_with := some p } rest
    else if name = "ignore" then
      parse_boolean_meta_item value true "ignore" >>= fun v =>
        parse_field_hash_values sp { h with ignore := v } rest
    else .error ("unknown attribute `" ++ name ++ "`")

/-- Option loop of the field-level `PartialEq` branch (`match_attributes!`). -/
def parse_field_partial_eq_values (sp : SubParsers) :
    FieldPartialEq → List (String × Option String) → Except String FieldPartialEq
  | pe, [] => .ok pe
  | pe, (name, value) :: rest =>
    if name = "bound" then
      parse_bound sp pe.bounds value >>= fun b =>
        parse_field_partial_eq_values sp { pe with bounds := b } rest
    else if name = "compare_with" then
      (match value with
        | some path => .ok path
        | none => .error "`compare_with` needs a value") >>= fun path =>
      sp.parsePath path >>= fun p =>
        parse_field_partial_eq_values sp { pe with compare_with := some p } rest
    else if name = "ignore" then
      parse_boolean_meta_item value true "ignore" >>= fun v =>
        parse_field_partial_eq_values sp { pe with ignore := v } rest
    else .error ("unknown attribute `" ++ name ++ "`")

/-- The field-level capability dispatch of `Field::from_ast` (`for_all_attr!`
body).  Note: the source matches only `Clone`, `Debug`, `Default`, `Eq`,
`Hash` and `PartialEq` here; there is no `Copy` arm. -/
def dispatch_field (sp : SubParsers) (out : Field) (m : Meta) : Except String Field :=
  if m.name = "Clone" then
    parse_field_clone_values sp out.clone m.values >>= fun c =>
      .ok { out with clone := c }
  else if m.name = "Debug" then
    parse_field_debug_values sp out.debug m.values >>= fun d =>
      .ok { out with debug := d }
  else if m.name = "Default" then
    parse_field_default_values sp out.default m.values >>= fun d =>
      .ok { out with default := d }
  else if m.name = "Eq" then
    parse_field_eq_values sp out.eq_bound m.values >>= fun b =>
      .ok { out with eq_bound := b }
  else if m.name = "Hash" then
    parse_field_hash_values sp out.hash m.values >>= fun h =>
      .ok { out with hash := h }
  else if m.name = "PartialEq" then
    parse_field_partial_eq_values sp out.partial_eq m.values >>= fun pe =>
      .ok { out with partial_eq := pe }
  else .error ("unknown trait `" ++ m.name ++ "`")

/-- `Field::from_ast`: parse the `derivative` attributes on a field. -/
def Field.from_ast (sp : SubParsers) (field : Syn.Field) : Except String Field :=
  (field.attrs.filterMap derivative_attribute).foldlM
    (fun out nested_metas =>
      nested_metas.foldlM
        (fun out meta => read_meta meta >>= dispatch_field sp out)
        out)
    ({} : Field)

/-- Accessor `Input::clone_bound`. -/
def Input.clone_bound (self : Input) : Option (List Syn.WherePredicate) :=
  match self.clone with
  | none => none
  | some d => d.bounds

/-- Accessor `Input::clone_from`. -/
def Input.clone_from (self : Input) : Bool :=
  match self.clone with
  | none => false
  | some d => d.clone_from

/-- Accessor `Input::copy_bound`. -/
def Input.copy_bound (self : Input) : Option (List Syn.WherePredicate) :=
  match self.copy with
  | none => none
  | some d => d.bounds

/-- Accessor `Input::derives_clone`. -/
def Input.derives_clone (self : Input) : Bool :=
  match self.copy with
  | none => false
  | some d => d.derives_clone

/-- Accessor `Input::debug_bound`. -/
def Input.debug_bound (self : Input) : Option (List Syn.WherePredicate) :=
  match self.debug with
  | none => none
  | some d => d.bounds

/-- Accessor `Input::debug_transparent`. -/
def Input.debug_transparent (self : Input) : Bool :=
  match self.debug with
  | none => false
  | some d => d.transparent

/-- Accessor `Input::default_bound`. -/
def Input.default_bound (self : Input) : Option (List Syn.WherePredicate) :=
  match self.default with
  | none => none
  | some d => d.bounds

/-- Accessor `Input::eq_bound`. -/
def Input.eq_bound (self : Input) : Option (List Syn.WherePredicate) :=
  match self.eq with
  | none => none
  | some d => d.bounds

/-- Accessor `Input::hash_bound`. -/
def Input.hash_bound (self : Input) : Option (List Syn.WherePredicate) :=
  match self.hash with
  | none => none
  | some d => d.bounds

/-- Accessor `Input::rustc_copy_clone_marker`. -/
def Input.rustc_copy_clone_marker (self : Input) : Bool :=
  match self.clone with
  | none => false
  | some d => d.rustc_copy_clone_marker

/-- Accessor `Input::partial_eq_bound`. -/
def Input.partial_eq_bound (self : Input) : Option (List Syn.WherePredicate) :=
  match self.partial_eq with
  | none => none
  | some d => d.bounds

/-- Accessor `Input::partial_eq_on_enum`. -/
def Input.partial_eq_on_enum (self : Input) : Bool :=
  match self.partial_eq with
  | none => false
  | some d => d.on_enum

/-- Accessor `Field::clone_bound`. -/
def Field.clone_bound (self : Field) : Option (List Syn.WherePredicate) :=
  self.clone.bounds

/-- Accessor `Field::clone_with`. -/
def Field.clone_with (self : Field) : Option Syn.Path :=
  self.clone.clone_with

/-- Accessor `Field::debug_bound`.  (`Field::copy_bound` and `Field::eq_bound`
are the structure projections of the same names.) -/
def Field.debug_bound (self : Field) : Option (List Syn.WherePredicate) :=
  self.debug.bounds

/-- Accessor `Field::debug_format_with`. -/
def Field.debug_format_with (self : Field) : Option Syn.Path :=
  self.debug.format_with

/-- Accessor `Field::ignore_debug`. -/
def Field.ignore_debug (self : Field) : Bool :=
  self.debug.ignore

/-- Accessor `Field::ignore_hash`. -/
def Field.ignore_hash (self : Field) : Bool :=
  self.hash.ignore

/-- Accessor `Field::default_bound`. -/
def Field.default_bound (self : Field) : Option (List Syn.WherePredicate) :=
  self.default.bounds

/-- Accessor `Field::default_value`. -/
def Field.default_value (self : Field) : Option Syn.Expr :=
  self.default.value

/-- Accessor `Field::hash_bound`. -/
def Field.hash_bound (self : Field) : Option (List Syn.WherePredicate) :=
  self.hash.bounds

/-- Accessor `Field::hash_with`. -/
def Field.hash_with (self : Field) : Option Syn.Path :=
  self.hash.hash_with

/-- Accessor `Field::partial_eq_bound`. -/
def Field.partial_eq_bound (self : Field) : Option (List Syn.WherePredicate) :=
  self.partial_eq.bounds

/-- Accessor `Field::partial_eq_compare_with`. -/
def Field.partial_eq_compare_with (self : Field) : Option Syn.Path :=
  self.partial_eq.compare_with

/-- Accessor `Field::ignore_partial_eq`. -/
def Field.ignore_partial_eq (self : Field) : Bool :=
  self.partial_eq.ignore

/-- A sample instantiation of the external sub-parsers, used for concrete
evaluations: each parser succeeds and records its input verbatim as one
opaque fragment. -/
def sampleParsers : SubParsers where
  parseWhereClause := fun s => .ok ⟨[s]⟩
  parsePath := fun s => .ok ⟨false, [⟨s, .none⟩]⟩
  parseExpr := fun s => .ok s

/-- A concrete `#[derivative(..)]` attribute carrying the given nested metas. -/
def derivAttr (nested : List Syn.NestedMeta) : Syn.Attribute :=
  ⟨⟨false, [⟨"derivative", .none⟩]⟩, some (.list "derivative" nested)⟩

/-- A concrete `#[rustc_copy_clone_marker]` attribute. -/
def markerAttr : Syn.Attribute :=
  ⟨⟨false, [⟨"rustc_copy_clone_marker", .none⟩]⟩, some (.word "rustc_copy_clone_marker")⟩

/-- A concrete plain `#[derive(Clone)]` attribute. -/
def deriveCloneAttr : Syn.Attribute :=
  ⟨⟨false, [⟨"derive", .none⟩]⟩, some (.list "derive" [.meta (.word "Clone")])⟩

/-- A concrete attribute outside this crate's namespace. -/
def plainAttr : Syn.Attribute :=
  ⟨⟨false, [⟨"allow", .none⟩]⟩, some (.list "allow" [.meta (.word "dead_code")])⟩

/-- Fixture: a declaration carrying the compiler marker, a plain
`derive(Clone)`, and namespaced `Clone` and `Copy` blocks. -/
def attrsW : List Syn.Attribute :=
  [markerAttr, deriveCloneAttr, derivAttr [.meta (.word "Clone"), .meta (.word "Copy")]]

/-- Fixture: the configuration parsed from `attrsW`. -/
def outW : Input :=
  { clone := some { bounds := none, clone_from := false, rustc_copy_clone_marker := true },
    copy := some { bounds := none, derives_clone := true } }

theorem except_bind_ok {α β : Type} (a : α) (f : α → Except String β) :
    ((Except.ok a : Except String α) >>= f) = f a := rfl

theorem except_bind_error {α β : Type} (e : String) (f : α → Except String β) :
    ((Except.error e : Except String α) >>= f) = Except.error e := rfl

/-- Inversion for a bind whose continuation always succeeds. -/
theorem except_bind_ok_inv {α β : Type} {e : Except String α} {g : α → β} {b : β}
    (h : (e >>= fun a => Except.ok (g a)) = .ok b) : ∃ a, e = .ok a ∧ b = g a := by
  cases e with
  | error e' => rw [except_bind_error] at h; exact Except.noConfusion h
  | ok a => rw [except_bind_ok] at h; injection h with h; exact ⟨a, rfl, h.symm⟩

theorem list_foldlM_nil {α β : Type} (f : β → α → Except String β) (b : β) :
    List.foldlM f b [] = .ok b := rfl

theorem list_foldlM_cons {α β : Type} (f : β → α → Except String β) (b : β) (a : α)
    (l : List α) :
    List.foldlM f b (a :: l) = f b a >>= fun b' => List.foldlM f b' l := rfl

/-- An invariant preserved by every successful step of a fold is preserved by
the whole fold. -/
theorem foldlM_inv {α β : Type} (f : β → α → Except String β) (P : β → Prop)
    (hf : ∀ b a b', f b a = .ok b' → P b → P b') :
    ∀ (l : List α) (b b' : β), List.foldlM f b l = .ok b' → P b → P b' := by
  intro l
  induction l with
  | nil =>
    intro b b' h hp
    rw [list_foldlM_nil] at h
    injection h with h
    exact h ▸ hp
  | cons a l ih =>
    intro b b' h hp
    rw [list_foldlM_cons] at h
    cases hfa : f b a with
    | error e => rw [hfa, except_bind_error] at h; exact Except.noConfusion h
    | ok b1 =>
      rw [hfa, except_bind_ok] at h
      exact ih b1 b' h (hf b a b1 hfa hp)

/-- The field-level dispatcher never writes the `copy_bound` slot. -/
theorem dispatch_field_copy_bound (sp : SubParsers) (out : Field) (m : Meta) (out' : Field)
    (h : dispatch_field sp out m = .ok out') : out'.copy_bound = out.copy_bound := by
  unfold dispatch_field at h
  split_ifs at h
  all_goals first
    | exact Except.noConfusion h
    | (obtain ⟨c, hc, rfl⟩ := except_bind_ok_inv h; rfl)

/-- `Field::from_ast` can never populate the `copy_bound` slot: its value in
every successfully parsed field configuration is `none`. -/
theorem field_from_ast_copy_bound (sp : SubParsers) (field : Syn.Field) (out : Field)
    (h : Field.from_ast sp field = .ok out) : out.copy_bound = none := by
  unfold Field.from_ast at h
  have hinner : ∀ (o : Field) (nm : Syn.NestedMeta) (o' : Field),
      (read_meta nm >>= dispatch_field sp o) = .ok o' →
      o.copy_bound = none → o'.copy_bound = none := by
    intro o nm o' h1 hp
    cases hr : read_meta nm with
    | error e => rw [hr, except_bind_error] at h1; exact Except.noConfusion h1
    | ok m =>
      rw [hr, except_bind_ok] at h1
      rw [dispatch_field_copy_bound sp o m o' h1]
      exact hp
  exact foldlM_inv _ (fun o => o.copy_bound = none)
    (fun b a b' hstep hp =>
      foldlM_inv _ (fun o => o.copy_bound = none)
        (fun o nm o' h1 hp' => hinner o nm o' h1 hp') a b b' hstep hp)
    (field.attrs.filterMap derivative_attribute) {} out h rfl

/-- The option loop of the type-level `Clone` branch never changes the
`rustc_copy_clone_marker` flag. -/
theorem parse_clone_values_marker (sp : SubParsers) :
    ∀ (vals : List (String × Option String)) (c c' : InputClone),
      parse_clone_values sp c vals = .ok c' →
      c'.rustc_copy_clone_marker = c.rustc_copy_clone_marker := by
  intro vals
  induction vals with
  | nil =>
    intro c c' h
    simp only [parse_clone_values] at h
    injection h with h
    rw [← h]
  | cons p vals ih =>
    obtain ⟨name, value⟩ := p
    intro c c' h
    simp only [parse_clone_values] at h
    by_cases h1 : name = "bound"
    · rw [if_pos h1] at h
      cases hpb : parse_bound sp c.bounds value with
      | error e => rw [hpb, except_bind_error] at h; exact Except.noConfusion h
      | ok b =>
        rw [hpb, except_bind_ok] at h
        have hres := ih _ _ h
        exact hres
    · rw [if_neg h1] at h
      by_cases h2 : name = "clone_from"
      · rw [if_pos h2] at h
        cases hpb : parse_boolean_meta_item value true "clone_from" with
        | error e => rw [hpb, except_bind_error] at h; exact Except.noConfusion h
        | ok v =>
          rw [hpb, except_bind_ok] at h
          have hres := ih _ _ h
          exact hres
      · rw [if_neg h2] at h
        exact Except.noConfusion h

/-- The option loop of the type-level `Copy` branch never changes the
`derives_clone` flag. -/
theorem parse_copy_values_derives (sp : SubParsers) :
    ∀ (vals : List (String × Option String)) (c c' : InputCopy),
      parse_copy_values sp c vals = .ok c' →
      c'.derives_clone = c.derives_clone := by
  intro vals
  induction vals with
  | nil =>
    intro c c' h
    simp only [parse_copy_values] at h
    injection h with h
    rw [← h]
  | cons p vals ih =>
    obtain ⟨name, value⟩ := p
    intro c c' h
    simp only [parse_copy_values] at h
    by_cases h1 : name = "bound"
    · rw [if_pos h1] at h
      cases hpb : parse_bound sp c.bounds value with
      | error e => rw [hpb, except_bind_error] at h; exact Except.noConfusion h
      | ok b =>
        rw [hpb, except_bind_ok] at h
        have hres := ih _ _ h
        exact hres
    · rw [if_neg h1] at h
      exact Except.noConfusion h

/-- One successful dispatch step keeps the scan invariant: any present Clone
sub-configuration records exactly the marker scan, and any present Copy
sub-configuration records exactly the `derive(Clone)` scan. -/
theorem dispatch_input_scan_inv (sp : SubParsers) (attrs : List Syn.Attribute)
    (input : Input) (m : Meta) (out : Input)
    (h : dispatch_input sp attrs input m = .ok out)
    (hc : ∀ c, input.clone = some c →
      c.rustc_copy_clone_marker = attrs.any is_rustc_copy_clone_marker)
    (hd : ∀ c, input.copy = some c → c.derives_clone = attrs.any is_derive_clone) :
    (∀ c, out.clone = some c →
      c.rustc_copy_clone_marker = attrs.any is_rustc_copy_clone_marker) ∧
    (∀ c, out.copy = some c → c.derives_clone = attrs.any is_derive_clone) := by
  unfold dispatch_input at h
  split_ifs at h
  · obtain ⟨c1, hc1, rfl⟩ := except_bind_ok_inv h
    refine ⟨?_, fun c hcEq => hd c hcEq⟩
    intro c hcEq
    injection hcEq with hcEq
    subst hcEq
    exact parse_clone_values_marker sp m.values _ _ hc1
  · obtain ⟨c1, hc1, rfl⟩ := except_bind_ok_inv h
    refine ⟨fun c hcEq => hc c hcEq, ?_⟩
    intro c hcEq
    injection hcEq with hcEq
    subst hcEq
    have hpres := parse_copy_values_derives sp m.values _ _ hc1
    cases hin : input.copy with
    | none =>
      rw [hin] at hpres
      exact hpres
    | some c0 =>
      rw [hin] at hpres
      have hpres' : c1.derives_clone = (c0.derives_clone || attrs.any is_derive_clone) := hpres
      rw [hpres', hd c0 hin, Bool.or_self]
  all_goals first
    | exact Except.noConfusion h
    | (obtain ⟨d, hd1, rfl⟩ := except_bind_ok_inv h
       exact ⟨fun c hcEq => hc c hcEq, fun c hcEq => hd c hcEq⟩)

theorem dispatch_input_clone (sp : SubParsers) (attrs : List Syn.Attribute) (input : Input)
    (o : List (String × Option String)) :
    dispatch_input sp attrs input ⟨"Clone", o⟩ =
      parse_clone_values sp
        { (input.clone.getD {}) with
            rustc_copy_clone_marker := attrs.any is_rustc_copy_clone_marker } o >>=
      fun clone => Except.ok { input with clone := some clone } := rfl

theorem dispatch_input_copy (sp : SubParsers) (attrs : List Syn.Attribute) (input : Input)
    (o : List (String × Option String)) :
    dispatch_input sp attrs input ⟨"Copy", o⟩ =
      parse_copy_values sp
        { (input.copy.getD {}) with
            derives_clone := (input.copy.getD {}).derives_clone || attrs.any is_derive_clone }
        o >>=
      fun copy => Except.ok { input with copy := some copy } := rfl

theorem dispatch_input_debug (sp : SubParsers) (attrs : List Syn.Attribute) (input : Input)
    (o : List (String × Option String)) :
    dispatch_input sp attrs input ⟨"Debug", o⟩ =
      parse_debug_values sp (input.debug.getD {}) o >>=
      fun debug => Except.ok { input with debug := some debug } := rfl

theorem dispatch_input_default (sp : SubParsers) (attrs : List Syn.Attribute) (input : Input)
    (o : List (String × Option String)) :
    dispatch_input sp attrs input ⟨"Default", o⟩ =
      parse_default_values sp (input.default.getD {}) o >>=
      fun dflt => Except.ok { input with default := some dflt } := rfl

theorem dispatch_input_eq (sp : SubParsers) (attrs : List Syn.Attribute) (input : Input)
    (o : List (String × Option String)) :
    dispatch_input sp attrs input ⟨"Eq", o⟩ =
      parse_eq_values sp (input.eq.getD {}) o >>=
      fun eq => Except.ok { input with eq := some eq } := rfl

theorem dispatch_input_hash (sp : SubParsers) (attrs : List Syn.Attribute) (input : Input)
    (o : List (String × Option String)) :
    dispatch_input sp attrs input ⟨"Hash", o⟩ =
      parse_hash_values sp (input.hash.getD {}) o >>=
      fun hash => Except.ok { input with hash := some hash } := rfl

theorem dispatch_input_partial_eq (sp : SubParsers) (attrs : List Syn.Attribute)
    (input : Input) (o : List (String × Option String)) :
    dispatch_input sp attrs input ⟨"PartialEq", o⟩ =
      parse_partial_eq_values sp (input.partial_eq.getD {}) o >>=
      fun pe => Except.ok { input with partial_eq := some pe } := rfl

theorem parse_clone_values_append (sp : SubParsers) :
    ∀ (o1 o2 : List (String × Option String)) (c : InputClone),
      parse_clone_values sp c (o1 ++ o2) =
        parse_clone_values sp c o1 >>= fun c1 => parse_clone_values sp c1 o2 := by
  intro o1
  induction o1 with
  | nil => intro o2 c; rw [List.nil_append]; rfl
  | cons p o1 ih =>
    intro o2 c
    obtain ⟨name, value⟩ := p
    rw [List.cons_append]
    simp only [parse_clone_values]
    by_cases h1 : name = "bound"
    · rw [if_pos h1, if_pos h1]
      cases hpb : parse_bound sp c.bounds value with
      | error e => simp only [hpb, except_bind_error]
      | ok b => simp only [hpb, except_bind_ok]; exact ih o2 _
    · rw [if_neg h1, if_neg h1]
      by_cases h2 : name = "clone_from"
      · rw [if_pos h2, if_pos h2]
        cases hpb : parse_boolean_meta_item value true "clone_from" with
        | error e => simp only [hpb, except_bind_error]
        | ok v => simp only [hpb, except_bind_ok]; exact ih o2 _
      · rw [if_neg h2, if_neg h2]
        simp only [except_bind_error]

theorem parse_copy_values_append (sp : SubParsers) :
    ∀ (o1 o2 : List (String × Option String)) (c : InputCopy),
      parse_copy_values sp c (o1 ++ o2) =
        parse_copy_values sp c o1 >>= fun c1 => parse_copy_values sp c1 o2 := by
  intro o1
  induction o1 with
  | nil => intro o2 c; rw [List.nil_append]; rfl
  | cons p o1 ih =>
    intro o2 c
    obtain ⟨name, value⟩ := p
    rw [List.cons_append]
    simp only [parse_copy_values]
    by_cases h1 : name = "bound"
    · rw [if_pos h1, if_pos h1]
      cases hpb : parse_bound sp c.bounds value with
      | error e => simp only [hpb, except_bind_error]
      | ok b => simp only [hpb, except_bind_ok]; exact ih o2 _
    · rw [if_neg h1, if_neg h1]
      simp only [except_bind_error]

theorem parse_debug_values_append (sp : SubParsers) :
    ∀ (o1 o2 : List (String × Option String)) (c : InputDebug),
      parse_debug_values sp c (o1 ++ o2) =
        parse_debug_values sp c o1 >>= fun c1 => parse_debug_values sp c1 o2 := by
  intro o1
  induction o1 with
  | nil => intro o2 c; rw [List.nil_append]; rfl
  | cons p o1 ih =>
    intro o2 c
    obtain ⟨name, value⟩ := p
    rw [List.cons_append]
    simp only [parse_debug_values]
    by_cases h1 : name = "bound"
    · rw [if_pos h1, if_pos h1]
      cases hpb : parse_bound sp c.bounds value with
      | error e => simp only [hpb, except_bind_error]
      | ok b => simp only [hpb, except_bind_ok]; exact ih o2 _
    · rw [if_neg h1, if_neg h1]
      by_cases h2 : name = "transparent"
      · rw [if_pos h2, if_pos h2]
        cases hpb : parse_boolean_meta_item value true "transparent" with
        | error e => simp only [hpb, except_bind_error]
        | ok v => simp only [hpb, except_bind_ok]; exact ih o2 _
      · rw [if_neg h2, if_neg h2]
        simp only [except_bind_error]

theorem parse_default_values_append (sp : SubParsers) :
    ∀ (o1 o2 : List (String × Option String)) (c : InputDefault),
      parse_default_values sp c (o1 ++ o2) =
        parse_default_values sp c o1 >>= fun c1 => parse_default_values sp c1 o2 := by
  intro o1
  induction o1 with
  | nil => intro o2 c; rw [List.nil_append]; rfl
  | cons p o1 ih =>
    intro o2 c
    obtain ⟨name, value⟩ := p
    rw [List.cons_append]
    simp only [parse_default_values]
    by_cases h1 : name = "bound"
    · rw [if_pos h1, if_pos h1]
      cases hpb : parse_bound sp c.bounds value with
      | error e => simp only [hpb, except_bind_error]
      | ok b => simp only [hpb, except_bind_ok]; exact ih o2 _
    · rw [if_neg h1, if_neg h1]
      by_cases h2 : name = "new"
      · rw [if_pos h2, if_pos h2]
        cases hpb : parse_boolean_meta_item value true "new" with
        | error e => simp only [hpb, except_bind_error]
        | ok v => simp only [hpb, except_bind_ok]; exact ih o2 _
      · rw [if_neg h2, if_neg h2]
        simp only [except_bind_error]

theorem parse_eq_values_append (sp : SubParsers) :
    ∀ (o1 o2 : List (String × Option String)) (c : InputEq),
      parse_eq_values sp c (o1 ++ o2) =
        parse_eq_values sp c o1 >>= fun c1 => parse_eq_values sp c1 o2 := by
  intro o1
  induction o1 with
  | nil => intro o2 c; rw [List.nil_append]; rfl
  | cons p o1 ih =>
    intro o2 c
    obtain ⟨name, value⟩ := p
    rw [List.cons_append]
    simp only [parse_eq_values]
    by_cases h1 : name = "bound"
    · rw [if_pos h1, if_pos h1]
      cases hpb : parse_bound sp c.bounds value with
      | error e => simp only [hpb, except_bind_error]
      | ok b => simp only [hpb, except_bind_ok]; exact ih o2 _
    · rw [if_neg h1, if_neg h1]
      simp only [except_bind_error]

theorem parse_hash_values_append (sp : SubParsers) :
    ∀ (o1 o2 : List (String × Option String)) (c : InputHash),
      parse_hash_values sp c (o1 ++ o2) =
        parse_hash_values sp c o1 >>= fun c1 => parse_hash_values sp c1 o2 := by
  intro o1
  induction o1 with
  | nil => intro o2 c; rw [List.nil_append]; rfl
  | cons p o1 ih =>
    intro o2 c
    obtain ⟨name, value⟩ := p
    rw [List.cons_append]
    simp only [parse_hash_values]
    by_cases h1 : name = "bound"
    · rw [if_pos h1, if_pos h1]
      cases hpb : parse_bound sp c.bounds value with
      | error e => simp only [hpb, except_bind_error]
      | ok b => simp only [hpb, except_bind_ok]; exact ih o2 _
    · rw [if_neg h1, if_neg h1]
      simp only [except_bind_error]

theorem parse_partial_eq_values_append (sp : SubParsers) :
    ∀ (o1 o2 : List (String × Option String)) (c : InputPartialEq),
      parse_partial_eq_values sp c (o1 ++ o2) =
        parse_partial_eq_values sp c o1 >>= fun c1 => parse_partial_eq_values sp c1 o2 := by
  intro o1
  induction o1 with
  | nil => intro o2 c; rw [List.nil_append]; rfl
  | cons p o1 ih =>
    intro o2 c
    obtain ⟨name, value⟩ := p
    rw [List.cons_append]
    simp only [parse_partial_eq_values]
    by_cases h1 : name = "bound"
    · rw [if_pos h1, if_pos h1]
      cases hpb : parse_bound sp c.bounds value with
      | error e => simp only [hpb, except_bind_error]
      | ok b => simp only [hpb, except_bind_ok]; exact ih o2 _
    · rw [if_neg h1, if_neg h1]
      by_cases h2 : name = "feature_allow_slow_enum"
      · rw [if_pos h2, if_pos h2]
        cases hpb : parse_boolean_meta_item value true "feature_allow_slow_enum" with
        | error e => simp only [hpb, except_bind_error]
        | ok v => simp only [hpb, except_bind_ok]; exact ih o2 _
      · rw [if_neg h2, if_neg h2]
        simp only [except_bind_error]

/-- C3: dispatching the same capability twice, first with options `o1` and
then with options `o2`, produces exactly the configuration obtained by
dispatching it once with the concatenated option list `o1 ++ o2`: each later
occurrence starts from the accumulated state of the previous occurrence.
This holds for every capability name (the unknown-name error agrees on both
sides as well), hence in particular for disjoint option sets, where the
concatenation is the union. -/
theorem claim3_merge (sp : SubParsers) (attrs : List Syn.Attribute) (input : Input)
    (name : String) (o1 o2 : List (String × Option String)) :
    (dispatch_input sp attrs input ⟨name, o1⟩ >>= fun i =>
        dispatch_input sp attrs i ⟨name, o2⟩) =
      dispatch_input sp attrs input ⟨name, o1 ++ o2⟩ := by
  by_cases h1 : name = "Clone"
  · subst h1
    simp only [dispatch_input_clone]
    rw [parse_clone_values_append]
    cases hp1 : parse_clone_values sp
        { (input.clone.getD {}) with
            rustc_copy_clone_marker := attrs.any is_rustc_copy_clone_marker } o1 with
    | error e => simp only [hp1, except_bind_error]
    | ok c1 =>
      simp only [hp1, except_bind_ok]
      have hm : c1.rustc_copy_clone_marker = attrs.any is_rustc_copy_clone_marker :=
        parse_clone_values_marker sp o1 _ _ hp1
      have he : ({ c1 with
          rustc_copy_clone_marker := attrs.any is_rustc_copy_clone_marker } : InputClone) = c1 := by
        rw [← hm]
      exact congrArg
        (fun x : InputClone => parse_clone_values sp x o2 >>= fun c =>
          (Except.ok { input with clone := some c } : Except String Input))
        he
  by_cases h2 : name = "Copy"
  · subst h2
    simp only [dispatch_input_copy]
    rw [parse_copy_values_append]
    cases hp1 : parse_copy_values sp
        { (input.copy.getD {}) with
            derives_clone := (input.copy.getD {}).derives_clone || attrs.any is_derive_clone }
        o1 with
    | error e => simp only [hp1, except_bind_error]
    | ok c1 =>
      simp only [hp1, except_bind_ok]
      have hm : c1.derives_clone =
          ((input.copy.getD {}).derives_clone || attrs.any is_derive_clone) :=
        parse_copy_values_derives sp o1 _ _ hp1
      have hor : (c1.derives_clone || attrs.any is_derive_clone) = c1.derives_clone := by
        rw [hm, Bool.or_assoc, Bool.or_self]
      have he : ({ c1 with
          derives_clone := c1.derives_clone || attrs.any is_derive_clone } : InputCopy) = c1 := by
        rw [hor]
      exact congrArg
        (fun x : InputCopy => parse_copy_values sp x o2 >>= fun c =>
          (Except.ok { input with copy := some c } : Except String Input))
        he
  by_cases h3 : name = "Debug"
  · subst h3
    simp only [dispatch_input_debug]
    rw [parse_debug_values_append]
    cases hp1 : parse_debug_values sp (input.debug.getD {}) o1 with
    | error e => simp only [hp1, except_bind_error]
    | ok d1 =>
      simp only [hp1, except_bind_ok]
      rfl
  by_cases h4 : name = "Default"
  · subst h4
    simp only [dispatch_input_default]
    rw [parse_default_values_append]
    cases hp1 : parse_default_values sp (input.default.getD {}) o1 with
    | error e => simp only [hp1, except_bind_error]
    | ok d1 =>
      simp only [hp1, except_bind_ok]
      rfl
  by_cases h5 : name = "Eq"
  · subst h5
    simp only [dispatch_input_eq]
    rw [parse_eq_values_append]
    cases hp1 : parse_eq_values sp (input.eq.getD {}) o1 with
    | error e => simp only [hp1, except_bind_error]
    | ok d1 =>
      simp only [hp1, except_bind_ok]
      rfl
  by_cases h6 : name = "Hash"
  · subst h6
    simp only [dispatch_input_hash]
    rw [parse_hash_values_append]
    cases hp1 : parse_hash_values sp (input.hash.getD {}) o1 with
    | error e => simp only [hp1, except_bind_error]
    | ok d1 =>
      simp only [hp1, except_bind_ok]
      rfl
  by_cases h7 : name = "PartialEq"
  · subst h7
    simp only [dispatch_input_partial_eq]
    rw [parse_partial_eq_values_append]
    cases hp1 : parse_partial_eq_values sp (input.partial_eq.getD {}) o1 with
    | error e => simp only [hp1, except_bind_error]
    | ok d1 =>
      simp only [hp1, except_bind_ok]
      rfl
  simp [dispatch_input, Meta.name, h1, h2, h3, h4, h5, h6, h7, except_bind_error]

/-- C2 counterexample: on a declaration carrying both the compiler-internal
`rustc_copy_clone_marker` attribute and a plain `derive(Clone)` attribute but
no namespaced block, parsing succeeds with every capability absent and both
accessors report `false`, although both scans detect their attribute. -/
theorem claim2_counterexample :
    [markerAttr, deriveCloneAttr].any is_rustc_copy_clone_marker = true ∧
    [markerAttr, deriveCloneAttr].any is_derive_clone = true ∧
    Input.from_ast sampleParsers [markerAttr, deriveCloneAttr] = .ok {} ∧
    Input.rustc_copy_clone_marker {} = false ∧
    Input.derives_clone {} = false ∧
    ({} : Input).clone = none ∧ ({} : Input).copy = none :=
  ⟨rfl, rfl, rfl, rfl, rfl, rfl, rfl⟩

/-- C2 amended: the two scans are folded into the Clone/Copy
sub-configurations only when a namespaced `Clone` (resp. `Copy`) block is
dispatched.  Whenever parsing succeeds and the Clone (resp. Copy)
sub-configuration is present, `rustc_copy_clone_marker` (resp.
`derives_clone`) reports exactly the scan result; when the corresponding
block never appeared, the accessor reports `false` regardless of the scans. -/
theorem claim2_amended (sp : SubParsers) (attrs : List Syn.Attribute) (out : Input)
    (h : Input.from_ast sp attrs = .ok out) :
    (out.clone.isSome →
      Input.rustc_copy_clone_marker out = attrs.any is_rustc_copy_clone_marker) ∧
    (out.clone = none → Input.rustc_copy_clone_marker out = false) ∧
    (out.copy.isSome → Input.derives_clone out = attrs.any is_derive_clone) ∧
    (out.copy = none → Input.derives_clone out = false) := by
  unfold Input.from_ast at h
  have hP : (∀ c, out.clone = some c →
        c.rustc_copy_clone_marker = attrs.any is_rustc_copy_clone_marker) ∧
      (∀ c, out.copy = some c → c.derives_clone = attrs.any is_derive_clone) := by
    refine foldlM_inv _
      (fun i => (∀ c, i.clone = some c →
          c.rustc_copy_clone_marker = attrs.any is_rustc_copy_clone_marker) ∧
        (∀ c, i.copy = some c → c.derives_clone = attrs.any is_derive_clone))
      ?_ _ _ _ h
      ⟨fun c hcEq => Option.noConfusion hcEq, fun c hcEq => Option.noConfusion hcEq⟩
    intro b a b' hstep hp
    refine foldlM_inv _
      (fun i => (∀ c, i.clone = some c →
          c.rustc_copy_clone_marker = attrs.any is_rustc_copy_clone_marker) ∧
        (∀ c, i.copy = some c → c.derives_clone = attrs.any is_derive_clone))
      ?_ a b b' hstep hp
    intro o nm o' h1 hp'
    cases hr : read_meta nm with
    | error e => rw [hr, except_bind_error] at h1; exact Except.noConfusion h1
    | ok m =>
      rw [hr, except_bind_ok] at h1
      exact dispatch_input_scan_inv sp attrs o m o' h1 hp'.1 hp'.2
  refine ⟨?_, ?_, ?_, ?_⟩
  · intro hs
    cases hcl : out.clone with
    | none => rw [hcl] at hs; simp at hs
    | some c => simp [Input.rustc_copy_clone_marker, hcl, hP.1 c hcl]
  · intro hcl
    simp [Input.rustc_copy_clone_marker, hcl]
  · intro hs
    cases hcp : out.copy with
    | none => rw [hcp] at hs; simp at hs
    | some c => simp [Input.derives_clone, hcp, hP.2 c hcp]
  · intro hcp
    simp [Input.derives_clone, hcp]

/-- Witness for C2's amended theorem at concrete inputs. -/
theorem claim2_witness :
    Input.from_ast sampleParsers attrsW = .ok outW ∧
    Input.rustc_copy_clone_marker outW = attrsW.any is_rustc_copy_clone_marker ∧
    Input.derives_clone outW = attrsW.any is_derive_clone :=
  ⟨rfl, (claim2_amended sampleParsers attrsW outW rfl).1 rfl,
    (claim2_amended sampleParsers attrsW outW rfl).2.2.1 rfl⟩

/-- C1: the specification says the field-level dispatcher matches `Copy` among
the seven capabilities and parses its `bound` option into the field's Copy
bound-list.  The code has no `Copy` arm in `Field::from_ast`: a field-level
namespaced `Copy` block fails with the unknown-trait error, and no successful
parse can ever populate the `copy_bound` slot read by `Field::copy_bound`. -/
theorem claim1_field_copy_code_bug (sp : SubParsers) :
    Field.from_ast sp ⟨[derivAttr [.meta (.list "Copy"
        [.meta (.nameValue "bound" (.str "T: Copy"))])]]⟩ =
      .error "unknown trait `Copy`" ∧
    (∀ (field : Syn.Field) (out : Field), Field.from_ast sp field = .ok out →
      Field.copy_bound out = none) :=
  ⟨rfl, fun field out h => field_from_ast_copy_bound sp field out h⟩

/-- Witness for C1's theorem at concrete inputs. -/
theorem claim1_witness :
    Field.from_ast sampleParsers ⟨[derivAttr [.meta (.list "Copy"
        [.meta (.nameValue "bound" (.str "T: Copy"))])]]⟩ =
      .error "unknown trait `Copy`" ∧
    Field.copy_bound {} = none :=
  ⟨(claim1_field_copy_code_bug sampleParsers).1,
   (claim1_field_copy_code_bug sampleParsers).2 ⟨[]⟩ {} rfl⟩

/-- C4: a `bound` option with no payload fails with the error
"`bound` needs a value"; an empty-string payload succeeds and appends zero
fragments; and the fragments of a non-empty payload (as produced by the
external constraint sub-parser) are appended after the fragments accumulated
by earlier occurrences, never overwriting them. -/
theorem claim4_bound_option (sp : SubParsers) (opt : Option (List Syn.WherePredicate))
    (acc : List Syn.WherePredicate) (b : String) (wc : Syn.WhereClause)
    (hb : b.isEmpty = false)
    (hw : sp.parseWhereClause ("where " ++ b) = .ok wc) :
    parse_bound sp opt none = .error "`bound` needs a value" ∧
    parse_bound sp (some acc) (some "") = .ok (some acc) ∧
    parse_bound sp (some acc) (some b) = .ok (some (acc ++ wc.predicates)) := by
  refine ⟨rfl, rfl, ?_⟩
  simp [parse_bound, hb, hw, except_bind_ok]

/-- Witness for C4's theorem at concrete inputs. -/
theorem claim4_witness :
    parse_bound sampleParsers (some ["P: Clone"]) none = .error "`bound` needs a value" ∧
    parse_bound sampleParsers (some ["P: Clone"]) (some "") = .ok (some ["P: Clone"]) ∧
    parse_bound sampleParsers (some ["P: Clone"]) (some "T: Copy") =
      .ok (some ["P: Clone", "where T: Copy"]) :=
  claim4_bound_option sampleParsers (some ["P: Clone"]) ["P: Clone"] "T: Copy"
    ⟨["where T: Copy"]⟩ rfl rfl

/-- C7: an annotation node of the shape `name = "payload"` normalizes to the
node's name with a single synthetic pair whose option key is the payload
string itself and whose value is absent. -/
theorem claim7_name_value_meta (name payload : String) :
    read_meta (.meta (.nameValue name (.str payload))) = .ok ⟨name, [(payload, none)]⟩ := rfl

/-- C10: a `bound` option with an empty-string payload on a fresh state leaves
the bound list present but empty: the accessor afterwards returns `some []`,
distinguishable from the `none` returned when no `bound` option was given. -/
theorem claim10_empty_bound_present (sp : SubParsers) :
    parse_bound sp none (some "") = .ok (some []) ∧
    (Input.from_ast sp [derivAttr [.meta (.list "Clone"
        [.meta (.nameValue "bound" (.str ""))])]]).map Input.clone_bound =
      .ok (some []) ∧
    (Input.from_ast sp [derivAttr [.meta (.word "Clone")]]).map Input.clone_bound =
      .ok none ∧
    (Field.from_ast sp ⟨[derivAttr [.meta (.list "Clone"
        [.meta (.nameValue "bound" (.str ""))])]]⟩).map Field.clone_bound =
      .ok (some []) ∧
    (Field.from_ast sp ⟨[derivAttr [.meta (.word "Clone")]]⟩).map Field.clone_bound =
      .ok none ∧
    some ([] : List Syn.WherePredicate) ≠ none :=
  ⟨rfl, rfl, rfl, rfl, rfl, fun h => Option.noConfusion h⟩

theorem parse_boolean_invalid (s : String) (d : Bool) (n : String)
    (hs1 : s ≠ "true") (hs2 : s ≠ "false") :
    parse_boolean_meta_item (some s) d n = .error ("Invalid value for `" ++ n ++ "`") := by
  simp [parse_boolean_meta_item, hs1, hs2]

theorem dispatch_clone_from (sp : SubParsers) (attrs : List Syn.Attribute) (input : Input)
    (v : Option String) :
    dispatch_input sp attrs input ⟨"Clone", [("clone_from", v)]⟩ =
      (parse_boolean_meta_item v true "clone_from" >>= fun b =>
        parse_clone_values sp
          { (input.clone.getD {}) with
              clone_from := b,
              rustc_copy_clone_marker := attrs.any is_rustc_copy_clone_marker } []) >>=
      fun clone => Except.ok { input with clone := some clone } := rfl

theorem dispatch_debug_transparent (sp : SubParsers) (attrs : List Syn.Attribute)
    (input : Input) (v : Option String) :
    dispatch_input sp attrs input ⟨"Debug", [("transparent", v)]⟩ =
      (parse_boolean_meta_item v true "transparent" >>= fun b =>
        parse_debug_values sp { (input.debug.getD {}) with transparent := b } []) >>=
      fun debug => Except.ok { input with debug := some debug } := rfl

theorem dispatch_default_new (sp : SubParsers) (attrs : List Syn.Attribute)
    (input : Input) (v : Option String) :
    dispatch_input sp attrs input ⟨"Default", [("new", v)]⟩ =
      (parse_boolean_meta_item v true "new" >>= fun b =>
        parse_default_values sp { (input.default.getD {}) with new := b } []) >>=
      fun dflt => Except.ok { input with default := some dflt } := rfl

theorem dispatch_partial_eq_toggle (sp : SubParsers) (attrs : List Syn.Attribute)
    (input : Input) (v : Option String) :
    dispatch_input sp attrs input ⟨"PartialEq", [("feature_allow_slow_enum", v)]⟩ =
      (parse_boolean_meta_item v true "feature_allow_slow_enum" >>= fun b =>
        parse_partial_eq_values sp { (input.partial_eq.getD {}) with on_enum := b } []) >>=
      fun pe => Except.ok { input with partial_eq := some pe } := rfl

theorem dispatch_field_debug_ignore (sp : SubParsers) (f : Field) (v : Option String) :
    dispatch_field sp f ⟨"Debug", [("ignore", v)]⟩ =
      (parse_boolean_meta_item v true "ignore" >>= fun b =>
        parse_field_debug_values sp { f.debug with ignore := b } []) >>=
      fun d => Except.ok { f with debug := d } := rfl

theorem dispatch_field_hash_ignore (sp : SubParsers) (f : Field) (v : Option String) :
    dispatch_field sp f ⟨"Hash", [("ignore", v)]⟩ =
      (parse_boolean_meta_item v true "ignore" >>= fun b =>
        parse_field_hash_values sp { f.hash with ignore := b } []) >>=
      fun h => Except.ok { f with hash := h } := rfl

theorem dispatch_field_partial_eq_ignore (sp : SubParsers) (f : Field) (v : Option String) :
    dispatch_field sp f ⟨"PartialEq", [("ignore", v)]⟩ =
      (parse_boolean_meta_item v true "ignore" >>= fun b =>
        parse_field_partial_eq_values sp { f.partial_eq with ignore := b } []) >>=
      fun pe => Except.ok { f with partial_eq := pe } := rfl

/-- C5: for every boolean toggle option (`clone_from`, `transparent`, `new`,
`ignore` at its three field-level sites, `feature_allow_slow_enum`): a bare
occurrence with no payload sets the toggle to `true`; payload `"false"` sets
it to `false`; payload `"true"` yields `true`; any other payload string fails
with the invalid-value error naming the option. -/
theorem claim5_boolean_toggles (sp : SubParsers) (attrs : List Syn.Attribute)
    (input : Input) (f : Field) (n s : String)
    (hs1 : s ≠ "true") (hs2 : s ≠ "false") :
    ((dispatch_input sp attrs input ⟨"Clone", [("clone_from", none)]⟩).map
        Input.clone_from = .ok true) ∧
    ((dispatch_input sp attrs input ⟨"Clone", [("clone_from", some "false")]⟩).map
        Input.clone_from = .ok false) ∧
    (dispatch_input sp attrs input ⟨"Clone", [("clone_from", some s)]⟩ =
      .error "Invalid value for `clone_from`") ∧
    ((dispatch_input sp attrs input ⟨"Debug", [("transparent", none)]⟩).map
        Input.debug_transparent = .ok true) ∧
    ((dispatch_input sp attrs input ⟨"Debug", [("transparent", some "false")]⟩).map
        Input.debug_transparent = .ok false) ∧
    (dispatch_input sp attrs input ⟨"Debug", [("transparent", some s)]⟩ =
      .error "Invalid value for `transparent`") ∧
    ((dispatch_input sp attrs input ⟨"Default", [("new", none)]⟩).map
        (fun i => i.default.map InputDefault.new) = .ok (some true)) ∧
    ((dispatch_input sp attrs input ⟨"Default", [("new", some "false")]⟩).map
        (fun i => i.default.map InputDefault.new) = .ok (some false)) ∧
    (dispatch_input sp attrs input ⟨"Default", [("new", some s)]⟩ =
      .error "Invalid value for `new`") ∧
    ((dispatch_input sp attrs input ⟨"PartialEq", [("feature_allow_slow_enum", none)]⟩).map
        Input.partial_eq_on_enum = .ok true) ∧
    ((dispatch_input sp attrs input
        ⟨"PartialEq", [("feature_allow_slow_enum", some "false")]⟩).map
        Input.partial_eq_on_enum = .ok false) ∧
    (dispatch_input sp attrs input ⟨"PartialEq", [("feature_allow_slow_enum", some s)]⟩ =
      .error "Invalid value for `feature_allow_slow_enum`") ∧
    ((dispatch_field sp f ⟨"Debug", [("ignore", none)]⟩).map Field.ignore_debug =
      .ok true) ∧
    ((dispatch_field sp f ⟨"Debug", [("ignore", some "false")]⟩).map Field.ignore_debug =
      .ok false) ∧
    (dispatch_field sp f ⟨"Debug", [("ignore", some s)]⟩ =
      .error "Invalid value for `ignore`") ∧
    ((dispatch_field sp f ⟨"Hash", [("ignore", none)]⟩).map Field.ignore_hash =
      .ok true) ∧
    ((dispatch_field sp f ⟨"Hash", [("ignore", some "false")]⟩).map Field.ignore_hash =
      .ok false) ∧
    (dispatch_field sp f ⟨"Hash", [("ignore", some s)]⟩ =
      .error "Invalid value for `ignore`") ∧
    ((dispatch_field sp f ⟨"PartialEq", [("ignore", none)]⟩).map Field.ignore_partial_eq =
      .ok true) ∧
    ((dispatch_field sp f ⟨"PartialEq", [("ignore", some "false")]⟩).map
        Field.ignore_partial_eq = .ok false) ∧
    (dispatch_field sp f ⟨"PartialEq", [("ignore", some s)]⟩ =
      .error "Invalid value for `ignore`") ∧
    parse_boolean_meta_item (some "true") true n = .ok true := by
  refine ⟨rfl, rfl, ?_, rfl, rfl, ?_, rfl, rfl, ?_, rfl, rfl, ?_, rfl, rfl, ?_,
    rfl, rfl, ?_, rfl, rfl, ?_, rfl⟩
  · rw [dispatch_clone_from, parse_boolean_invalid s true "clone_from" hs1 hs2]; rfl
  · rw [dispatch_debug_transparent, parse_boolean_invalid s true "transparent" hs1 hs2]; rfl
  · rw [dispatch_default_new, parse_boolean_invalid s true "new" hs1 hs2]; rfl
  · rw [dispatch_partial_eq_toggle,
      parse_boolean_invalid s true "feature_allow_slow_enum" hs1 hs2]
    rfl
  · rw [dispatch_field_debug_ignore, parse_boolean_invalid s true "ignore" hs1 hs2]; rfl
  · rw [dispatch_field_hash_ignore, parse_boolean_invalid s true "ignore" hs1 hs2]; rfl
  · rw [dispatch_field_partial_eq_ignore, parse_boolean_invalid s true "ignore" hs1 hs2]; rfl

/-- Witness for C5's theorem at concrete inputs. -/
theorem claim5_witness :
    dispatch_input sampleParsers [] {} ⟨"Clone", [("clone_from", some "maybe")]⟩ =
      .error "Invalid value for `clone_from`" ∧
    (dispatch_field sampleParsers {} ⟨"Debug", [("ignore", none)]⟩).map Field.ignore_debug =
      .ok true := by
  have h := claim5_boolean_toggles sampleParsers [] ({} : Input) ({} : Field) "x" "maybe"
    (by decide) (by decide)
  exact ⟨h.2.2.1, h.2.2.2.2.2.2.2.2.2.2.2.2.1⟩


/-- C6: a top-level block named outside the seven capabilities fails with
"unknown trait `<name>`" at both the type level and the field level, and this
aborts the whole declaration (the tail of the annotation list is never
reached); an option named outside the recognized set of its capability block
fails with "unknown attribute `<name>`" at its first occurrence, regardless of
the remaining options. -/
theorem claim6_unknown_names (sp : SubParsers) (attrs : List Syn.Attribute)
    (input : Input) (f : Field) (name oname : String) (v : Option String)
    (rest : List (String × Option String)) (ms : List Syn.NestedMeta)
    (more : List Syn.Attribute)
    (hname : name ∉ ["Clone", "Copy", "Debug", "Default", "Eq", "Hash", "PartialEq"]) :
    (dispatch_input sp attrs input ⟨name, rest⟩ =
      .error ("unknown trait `" ++ name ++ "`")) ∧
    (dispatch_field sp f ⟨name, rest⟩ = .error ("unknown trait `" ++ name ++ "`")) ∧
    (Input.from_ast sp (derivAttr (.meta (.word name) :: ms) :: more) =
      .error ("unknown trait `" ++ name ++ "`")) ∧
    (oname ∉ ["bound", "clone_from"] →
      dispatch_input sp attrs input ⟨"Clone", (oname, v) :: rest⟩ =
        .error ("unknown attribute `" ++ oname ++ "`")) ∧
    (oname ∉ ["bound"] →
      dispatch_input sp attrs input ⟨"Copy", (oname, v) :: rest⟩ =
        .error ("unknown attribute `" ++ oname ++ "`")) ∧
    (oname ∉ ["bound", "transparent"] →
      dispatch_input sp attrs input ⟨"Debug", (oname, v) :: rest⟩ =
        .error ("unknown attribute `" ++ oname ++ "`")) ∧
    (oname ∉ ["bound", "new"] →
      dispatch_input sp attrs input ⟨"Default", (oname, v) :: rest⟩ =
        .error ("unknown attribute `" ++ oname ++ "`")) ∧
    (oname ∉ ["bound"] →
      dispatch_input sp attrs input ⟨"Eq", (oname, v) :: rest⟩ =
        .error ("unknown attribute `" ++ oname ++ "`")) ∧
    (oname ∉ ["bound"] →
      dispatch_input sp attrs input ⟨"Hash", (oname, v) :: rest⟩ =
        .error ("unknown attribute `" ++ oname ++ "`")) ∧
    (oname ∉ ["bound", "feature_allow_slow_enum"] →
      dispatch_input sp attrs input ⟨"PartialEq", (oname, v) :: rest⟩ =
        .error ("unknown attribute `" ++ oname ++ "`")) ∧
    (oname ∉ ["bound", "clone_with"] →
      dispatch_field sp f ⟨"Clone", (oname, v) :: rest⟩ =
        .error ("unknown attribute `" ++ oname ++ "`")) ∧
    (oname ∉ ["bound", "format_with", "ignore"] →
      dispatch_field sp f ⟨"Debug", (oname, v) :: rest⟩ =
        .error ("unknown attribute `" ++ oname ++ "`")) ∧
    (oname ∉ ["bound", "value"] →
      dispatch_field sp f ⟨"Default", (oname, v) :: rest⟩ =
        .error ("unknown attribute `" ++ oname ++ "`")) ∧
    (oname ∉ ["bound"] →
      dispatch_field sp f ⟨"Eq", (oname, v) :: rest⟩ =
        .error ("unknown attribute `" ++ oname ++ "`")) ∧
    (oname ∉ ["bound", "hash_with", "ignore"] →
      dispatch_field sp f ⟨"Hash", (oname, v) :: rest⟩ =
        .error ("unknown attribute `" ++ oname ++ "`")) ∧
    (oname ∉ ["bound", "compare_with", "ignore"] →
      dispatch_field sp f ⟨"PartialEq", (oname, v) :: rest⟩ =
        .error ("unknown attribute `" ++ oname ++ "`")) := by
  simp only [List.mem_cons, List.not_mem_nil, or_false, not_or] at hname
  obtain ⟨hn1, hn2, hn3, hn4, hn5, hn6, hn7⟩ := hname
  have hdin : dispatch_input sp attrs input ⟨name, rest⟩ =
      .error ("unknown trait `" ++ name ++ "`") := by
    simp [dispatch_input, hn1, hn2, hn3, hn4, hn5, hn6, hn7]
  have hdf : dispatch_field sp f ⟨name, rest⟩ =
      .error ("unknown trait `" ++ name ++ "`") := by
    simp [dispatch_field, hn1, hn3, hn4, hn5, hn6, hn7]
  refine ⟨hdin, hdf, ?_, ?_, ?_, ?_, ?_, ?_, ?_, ?_, ?_, ?_, ?_, ?_, ?_, ?_⟩
  · have hda : derivative_attribute (derivAttr (.meta (.word name) :: ms)) =
        some (.meta (.word name) :: ms) := rfl
    have hstep : (read_meta (.meta (.word name)) >>=
        dispatch_input sp (derivAttr (.meta (.word name) :: ms) :: more) ({} : Input)) =
        .error ("unknown trait `" ++ name ++ "`") := by
      rw [show read_meta (.meta (.word name)) = .ok ⟨name, []⟩ from rfl, except_bind_ok]
      simp [dispatch_input, hn1, hn2, hn3, hn4, hn5, hn6, hn7]
    simp only [Input.from_ast, List.filterMap_cons_some hda, list_foldlM_cons]
    rw [hstep, except_bind_error, except_bind_error]
  · intro ho
    simp only [List.mem_cons, List.not_mem_nil, or_false, not_or] at ho
    rw [dispatch_input_clone]
    simp [parse_clone_values, ho.1, ho.2, except_bind_error]
  · intro ho
    simp only [List.mem_cons, List.not_mem_nil, or_false, not_or] at ho
    rw [dispatch_input_copy]
    simp [parse_copy_values, ho, except_bind_error]
  · intro ho
    simp only [List.mem_cons, List.not_mem_nil, or_false, not_or] at ho
    rw [dispatch_input_debug]
    simp [parse_debug_values, ho.1, ho.2, except_bind_error]
  · intro ho
    simp only [List.mem_cons, List.not_mem_nil, or_false, not_or] at ho
    rw [dispatch_input_default]
    simp [parse_default_values, ho.1, ho.2, except_bind_error]
  · intro ho
    simp only [List.mem_cons, List.not_mem_nil, or_false, not_or] at ho
    rw [dispatch_input_eq]
    simp [parse_eq_values, ho, except_bind_error]
  · intro ho
    simp only [List.mem_cons, List.not_mem_nil, or_false, not_or] at ho
    rw [dispatch_input_hash]
    simp [parse_hash_values, ho, except_bind_error]
  · intro ho
    simp only [List.mem_cons, List.not_mem_nil, or_false, not_or] at ho
    rw [dispatch_input_partial_eq]
    simp [parse_partial_eq_values, ho.1, ho.2, except_bind_error]
  · intro ho
    simp only [List.mem_cons, List.not_mem_nil, or_false, not_or] at ho
    simp [dispatch_field, parse_field_clone_values, ho.1, ho.2, except_bind_error]
  · intro ho
    simp only [List.mem_cons, List.not_mem_nil, or_false, not_or] at ho
    simp [dispatch_field, parse_field_debug_values, ho.1, ho.2.1, ho.2.2, except_bind_error]
  · intro ho
    simp only [List.mem_cons, List.not_mem_nil, or_false, not_or] at ho
    simp [dispatch_field, parse_field_default_values, ho.1, ho.2, except_bind_error]
  · intro ho
    simp only [List.mem_cons, List.not_mem_nil, or_false, not_or] at ho
    simp [dispatch_field, parse_field_eq_values, ho, except_bind_error]
  · intro ho
    simp only [List.mem_cons, List.not_mem_nil, or_false, not_or] at ho
    simp [dispatch_field, parse_field_hash_values, ho.1, ho.2.1, ho.2.2, except_bind_error]
  · intro ho
    simp only [List.mem_cons, List.not_mem_nil, or_false, not_or] at ho
    simp [dispatch_field, parse_field_partial_eq_values, ho.1, ho.2.1, ho.2.2,
      except_bind_error]

/-- Witness for C6's theorem at concrete inputs. -/
theorem claim6_witness :
    dispatch_input sampleParsers [] {} ⟨"Foo", []⟩ = .error "unknown trait `Foo`" ∧
    dispatch_field sampleParsers {} ⟨"Foo", []⟩ = .error "unknown trait `Foo`" ∧
    Input.from_ast sampleParsers [derivAttr [.meta (.word "Foo")]] =
      .error "unknown trait `Foo`" ∧
    dispatch_input sampleParsers [] {} ⟨"Clone", [("bogus", none)]⟩ =
      .error "unknown attribute `bogus`" ∧
    dispatch_field sampleParsers {} ⟨"PartialEq", [("bogus", none)]⟩ =
      .error "unknown attribute `bogus`" := by
  have h := claim6_unknown_names sampleParsers [] ({} : Input) ({} : Field) "Foo" "bogus"
    none [] [] [] (by decide)
  exact ⟨h.1, h.2.1, h.2.2.1, h.2.2.2.1 (by decide),
    h.2.2.2.2.2.2.2.2.2.2.2.2.2.2.2 (by decide)⟩


/-- A list of nested entries whose first ill-shaped entry has one of the
shapes (nested list, bare name, bare literal) maps to the
"Expected named value" error. -/
theorem mapM_entries_error (bad : Syn.NestedMeta) (post : List Syn.NestedMeta)
    (hbad : is_unnamed_entry bad = true) :
    ∀ (pre : List Syn.NestedMeta), (∀ x ∈ pre, is_name_str_pair x = true) →
      List.mapM read_nested_entry (pre ++ bad :: post) =
        .error "Expected named value" := by
  have hb : read_nested_entry bad = .error "Expected named value" := by
    cases bad with
    | lit l => rfl
    | meta m =>
      cases m with
      | word n => rfl
      | list i l => rfl
      | nameValue i l => simp [is_unnamed_entry] at hbad
  intro pre
  induction pre with
  | nil =>
    intro _
    rw [List.nil_append, List.mapM_cons, hb, except_bind_error]
  | cons x pre ih =>
    intro hpre
    have hx := hpre x (List.mem_cons_self x pre)
    obtain ⟨i, s0, rfl⟩ : ∃ i s0, x = Syn.NestedMeta.meta (.nameValue i (.str s0)) := by
      cases x with
      | lit l => simp [is_name_str_pair] at hx
      | meta m =>
        cases m with
        | word nm => simp [is_name_str_pair] at hx
        | list i l => simp [is_name_str_pair] at hx
        | nameValue i l =>
          cases l with
          | str s0 => exact ⟨i, s0, rfl⟩
          | other => simp [is_name_str_pair] at hx
    simp only [List.cons_append, List.mapM_cons,
      show read_nested_entry (Syn.NestedMeta.meta (.nameValue i (.str s0))) =
        .ok (i, some s0) from rfl,
      except_bind_ok, ih (fun y hy => hpre y (List.mem_cons_of_mem _ hy)),
      except_bind_error]

/-- C8: the Meta Normalizer rejects every ill-shaped node: a bare literal in
meta position is an error; a `name = <non-string literal>` node fails with
"Expected string"; inside a `name(...)` node, a nested entry that is a nested
list, a bare name, or a bare literal (the first such entry, after well-formed
`name = string` pairs) fails with "Expected named value"; and a bare name
succeeds with an empty option list. -/
theorem claim8_meta_shape_errors (l : Syn.Lit) (n : String) (pre : List Syn.NestedMeta)
    (bad : Syn.NestedMeta) (post : List Syn.NestedMeta)
    (hpre : ∀ x ∈ pre, is_name_str_pair x = true)
    (hbad : is_unnamed_entry bad = true) :
    read_meta (.lit l) = .error "Expected meta but found literal" ∧
    read_meta (.meta (.nameValue n .other)) = .error "Expected string" ∧
    read_meta (.meta (.list n (pre ++ bad :: post))) = .error "Expected named value" ∧
    read_meta (.meta (.word n)) = .ok ⟨n, []⟩ := by
  refine ⟨rfl, rfl, ?_, rfl⟩
  simp only [read_meta]
  rw [mapM_entries_error bad post hbad pre hpre, except_bind_error]

/-- Witness for C8's theorem at concrete inputs. -/
theorem claim8_witness :
    read_meta (.lit (.str "3")) = .error "Expected meta but found literal" ∧
    read_meta (.meta (.nameValue "Debug" .other)) = .error "Expected string" ∧
    read_meta (.meta (.list "Debug"
      ([.meta (.nameValue "bound" (.str "T: Copy"))] ++
        Syn.NestedMeta.meta (.word "transparent") :: [.lit .other]))) =
      .error "Expected named value" ∧
    read_meta (.meta (.word "Debug")) = .ok ⟨"Debug", []⟩ :=
  claim8_meta_shape_errors (.str "3") "Debug" [.meta (.nameValue "bound" (.str "T: Copy"))]
    (.meta (.word "transparent")) [.lit .other] (by decide) rfl


theorem filterMap_none {α β : Type} (f : α → Option β) :
    ∀ (l : List α), (∀ a ∈ l, f a = none) → l.filterMap f = [] := by
  intro l
  induction l with
  | nil => intro _; rfl
  | cons a l ih =>
    intro h
    rw [List.filterMap_cons_none (h a (List.mem_cons_self a l))]
    exact ih (fun x hx => h x (List.mem_cons_of_mem _ hx))

/-- C9: a declaration whose attributes contain no `derivative` item parses to
the all-absent configuration, on which every accessor returns its neutral
default; likewise for a field.  Attributes outside the namespace are skipped,
never an error. -/
theorem claim9_no_namespace (sp : SubParsers) (attrs fattrs : List Syn.Attribute)
    (hattrs : ∀ a ∈ attrs, derivative_attribute a = none)
    (hfattrs : ∀ a ∈ fattrs, derivative_attribute a = none) :
    Input.from_ast sp attrs = .ok {} ∧
    (({} : Input).clone = none ∧ ({} : Input).copy = none ∧ ({} : Input).debug = none ∧
      ({} : Input).default = none ∧ ({} : Input).eq = none ∧ ({} : Input).hash = none ∧
      ({} : Input).partial_eq = none ∧
      Input.clone_bound {} = none ∧ Input.clone_from {} = false ∧
      Input.copy_bound {} = none ∧ Input.derives_clone {} = false ∧
      Input.debug_bound {} = none ∧ Input.debug_transparent {} = false ∧
      Input.default_bound {} = none ∧ Input.eq_bound {} = none ∧
      Input.hash_bound {} = none ∧ Input.rustc_copy_clone_marker {} = false ∧
      Input.partial_eq_bound {} = none ∧ Input.partial_eq_on_enum {} = false) ∧
    Field.from_ast sp ⟨fattrs⟩ = .ok {} ∧
    (Field.clone_bound {} = none ∧ Field.clone_with {} = none ∧
      Field.copy_bound {} = none ∧ Field.debug_bound {} = none ∧
      Field.debug_format_with {} = none ∧ Field.ignore_debug {} = false ∧
      Field.ignore_hash {} = false ∧ Field.default_bound {} = none ∧
      Field.default_value {} = none ∧ Field.eq_bound {} = none ∧
      Field.hash_bound {} = none ∧ Field.hash_with {} = none ∧
      Field.partial_eq_bound {} = none ∧ Field.partial_eq_compare_with {} = none ∧
      Field.ignore_partial_eq {} = false) := by
  refine ⟨?_, ⟨rfl, rfl, rfl, rfl, rfl, rfl, rfl, rfl, rfl, rfl, rfl, rfl, rfl, rfl,
    rfl, rfl, rfl, rfl, rfl⟩, ?_,
    ⟨rfl, rfl, rfl, rfl, rfl, rfl, rfl, rfl, rfl, rfl, rfl, rfl, rfl, rfl, rfl⟩⟩
  · unfold Input.from_ast
    rw [filterMap_none derivative_attribute attrs hattrs]
    rfl
  · unfold Field.from_ast
    rw [filterMap_none derivative_attribute fattrs hfattrs]
    rfl

/-- Witness for C9's theorem at concrete inputs. -/
theorem claim9_witness :
    Input.from_ast sampleParsers [plainAttr, markerAttr, deriveCloneAttr] = .ok {} ∧
    Field.from_ast sampleParsers ⟨[plainAttr]⟩ = .ok {} := by
  have h := claim9_no_namespace sampleParsers [plainAttr, markerAttr, deriveCloneAttr]
    [plainAttr]
    (by
      intro a ha
      simp only [List.mem_cons, List.not_mem_nil, or_false] at ha
      rcases ha with rfl | rfl | rfl
      · rfl
      · rfl
      · rfl)
    (by
      intro a ha
      simp only [List.mem_cons, List.not_mem_nil, or_false] at ha
      rcases ha with rfl
      rfl)
  exact ⟨h.1, h.2.2.1⟩

end Derivative
